import Mathlib

/-!
# Verification of the `ChatProcessor` chat-routing core

A shallow embedding of `src/source/game/StarChatProcessor.cpp` (OpenStarbound).
Strings are modelled as `List Char`; the `Star::Map` / `Star::Set` containers
(whose sources lie outside `src/`) are modelled as association lists / element
lists with the documented Star semantics: `Map::get`/`Map::take` require the
key to be present (they raise `MapException` otherwise, modelled as `Option`),
`Map::operator[]` default-constructs a missing entry, `Set::add`/`Set::remove`
return whether membership changed.
-/

/-- Characters of a Star::String, modelled as a list of characters. -/
abbrev Str := List Char

/-- Convert a Lean string literal to the character-list model. -/
def sOf (s : String) : Str := s.data

/-- The single-quote character (ASCII 39), used in connect/disconnect notices. -/
def squote : Char := Char.ofNat 39

/-- `String::beginsWith`: does `s` start with `p`? -/
def beginsWith : Str → Str → Bool
  | _, [] => true
  | [], _ :: _ => false
  | c :: s, p :: ps => c = p && beginsWith s ps

/-- Star whitespace characters (space, tab, newline, carriage return). -/
def isSpaceCh (c : Char) : Bool := c = ' ' || c = '\t' || c = '\n' || c = '\r'

/-- Modelled from the spec: `Star::String::trim` (StarString.cpp is not under
`src/`): strips leading and trailing whitespace, per the spec's "(trimmed)". -/
def strTrim (s : Str) : Str :=
  ((s.dropWhile isSpaceCh).reverse.dropWhile isSpaceCh).reverse

/-- Modelled from the spec: `Star::String::extract` (StarString.cpp is not
under `src/`): splits off "the first whitespace-delimited token"; the result is
the token and the remainder after the token and the whitespace following it. -/
def extract (s : Str) : Str × Str :=
  let s1 := s.dropWhile isSpaceCh
  (s1.takeWhile (fun c => !isSpaceCh c),
    (s1.dropWhile (fun c => !isSpaceCh c)).dropWhile isSpaceCh)

/-- Index of the first occurrence of character `c` in `s`, if any. -/
def strFind? (c : Char) : Str → Option Nat
  | [] => none
  | x :: xs => if x = c then some 0 else (strFind? c xs).map (· + 1)

/-- Decimal rendering of a connection id, for `strf("Player_{}", clientId)`. -/
def natToStr (n : Nat) : Str := (toString n).data

/-- Connection identifiers (`ConnectionId` is an integer handle). -/
abbrev ConnectionId := Nat

/-- `ServerConnectionId`: the reserved sentinel connection id of the server. -/
def ServerConnectionId : ConnectionId := 0

/-- `ChatProcessor::ServerNick = "server"`. -/
def ServerNick : Str := sOf "server"

/-- Association-list model of a `Star::Map`. -/
abbrev AMap (α β : Type) := List (α × β)

/-- `Map::maybe` / guarded `Map::get`: value at key `k`, if present. -/
def mapGet? [DecidableEq α] (m : AMap α β) (k : α) : Option β :=
  (m.find? (fun p => decide (p.1 = k))).map (fun p => p.2)

/-- `Map::contains`. -/
def mapContains [DecidableEq α] (m : AMap α β) (k : α) : Bool :=
  (mapGet? m k).isSome

/-- `Map::operator[] = v` / `Map::add` on a fresh key: bind `k` to `v`,
overwriting an existing binding. -/
def mapSet [DecidableEq α] (m : AMap α β) (k : α) (v : β) : AMap α β :=
  if mapContains m k then
    m.map (fun p => if p.1 = k then (k, v) else p)
  else
    m ++ [(k, v)]

/-- `Map::remove`: drop the binding of `k`, if any. -/
def mapRemove [DecidableEq α] (m : AMap α β) (k : α) : AMap α β :=
  m.filter (fun p => !decide (p.1 = k))

/-- Update the value bound to `k` in place (used for mutation through
`Map::get` references). -/
def mapUpdate [DecidableEq α] (m : AMap α β) (k : α) (f : β → β) : AMap α β :=
  m.map (fun p => if p.1 = k then (p.1, f p.2) else p)

/-- `Set::add`: returns whether the element was newly inserted, and the set. -/
def setAdd (s : List ConnectionId) (x : ConnectionId) : Bool × List ConnectionId :=
  if s.contains x then (false, s) else (true, s ++ [x])

/-- `Set::remove`: returns whether the element was present, and the set. -/
def setRemove (s : List ConnectionId) (x : ConnectionId) : Bool × List ConnectionId :=
  if s.contains x then (true, s.filter (fun y => !decide (y = x))) else (false, s)

/-- `MessageContext::Mode`. -/
inductive MessageMode where
  | Broadcast
  | Local
  | Party
  | Whisper
  | CommandResult
deriving DecidableEq, Repr

/-- `MessageContext`: a mode together with a channel name (empty when the mode
carries no channel). -/
structure MessageContext where
  mode : MessageMode
  channelName : Str
deriving DecidableEq, Repr

/-- `ChatReceivedMessage`. -/
structure ChatReceivedMessage where
  context : MessageContext
  fromConnection : ConnectionId
  fromNick : Str
  text : Str
deriving DecidableEq, Repr

/-- `ChatProcessor::ClientInfo`: a session record. -/
structure ClientInfo where
  clientId : ConnectionId
  nick : Str
  pendingMessages : List ChatReceivedMessage
deriving DecidableEq, Repr

/-- The `ChatProcessor` state: session table, nickname index, channel table.
The command-handler slot is passed as an explicit parameter to the operations
that consult it. -/
structure ChatProcessor where
  m_clients : AMap ConnectionId ClientInfo
  m_nicks : AMap Str ConnectionId
  m_channels : AMap Str (List ConnectionId)
deriving DecidableEq, Repr

/-- The pluggable external command handler slot. -/
abbrev CommandHandler := ConnectionId → Str → Str → Str

/-- Append a message to the pending queue of client `id` (mutation through
`m_clients.get(id).pendingMessages.append`). -/
def appendTo (cp : ChatProcessor) (id : ConnectionId) (m : ChatReceivedMessage) :
    ChatProcessor :=
  { cp with
    m_clients := mapUpdate cp.m_clients id
      (fun c => { c with pendingMessages := c.pendingMessages ++ [m] }) }

/-- Append a message to every client's pending queue (the `for (auto& pair :
m_clients)` loops). -/
def appendAll (clients : AMap ConnectionId ClientInfo) (m : ChatReceivedMessage) :
    AMap ConnectionId ClientInfo :=
  clients.map (fun p =>
    (p.1, { p.2 with pendingMessages := p.2.pendingMessages ++ [m] }))

/-- One step of `ChatProcessor::makeNickUnique`'s while loop, with explicit
fuel. -/
def makeNickUniqueAux (nicks : AMap Str ConnectionId) : Nat → Str → Str
  | 0, nick => nick
  | fuel + 1, nick =>
    if mapContains nicks nick || decide (nick = ServerNick) then
      makeNickUniqueAux nicks fuel (nick ++ ['_'])
    else nick

/-- `ChatProcessor::makeNickUnique`: append `'_'` while the candidate collides
with an existing nickname or equals the reserved server nickname.  The C++
loop always terminates: candidates have strictly increasing lengths, hence are
pairwise distinct, and at most `nicks.length + 1` names are taken, so
`nicks.length + 2` iterations of fuel always suffice (`makeNickUniqueAux_free`
below proves the result collides with nothing). -/
def makeNickUnique (nicks : AMap Str ConnectionId) (nick : Str) : Str :=
  makeNickUniqueAux nicks (nicks.length + 2) nick

/-- The `"Player '{}' connected"` broadcast notice. -/
def connectedNotice (nick : Str) : ChatReceivedMessage :=
  { context := { mode := MessageMode.Broadcast, channelName := [] }
    fromConnection := ServerConnectionId
    fromNick := ServerNick
    text := sOf "Player " ++ [squote] ++ nick ++ [squote] ++ sOf " connected" }

/-- The `"Player '{}' disconnected"` broadcast notice. -/
def disconnectedNotice (nick : Str) : ChatReceivedMessage :=
  { context := { mode := MessageMode.Broadcast, channelName := [] }
    fromConnection := ServerConnectionId
    fromNick := ServerNick
    text := sOf "Player " ++ [squote] ++ nick ++ [squote] ++ sOf " disconnected" }

/-- `ChatProcessor::connectClient`. -/
def connectClient (cp : ChatProcessor) (clientId : ConnectionId) (nick : Str) :
    Str × ChatProcessor :=
  let nick1 := if nick = [] then sOf "Player_" ++ natToStr clientId else nick
  let nick2 := makeNickUnique cp.m_nicks nick1
  let clients1 := appendAll cp.m_clients (connectedNotice nick2)
  ( nick2
  , { cp with
      m_clients := clients1 ++ [(clientId, ⟨clientId, nick2, []⟩)]
      m_nicks := mapSet cp.m_nicks nick2 clientId } )

/-- `ChatProcessor::joinChannel`: `m_channels[channelName].add(clientId)`;
`operator[]` creates a missing channel record. -/
def joinChannel (cp : ChatProcessor) (clientId : ConnectionId) (channelName : Str) :
    Bool × ChatProcessor :=
  let s := (mapGet? cp.m_channels channelName).getD []
  let r := setAdd s clientId
  (r.1, { cp with m_channels := mapSet cp.m_channels channelName r.2 })

/-- `ChatProcessor::leaveChannel`: `m_channels[channelName].remove(clientId)`;
`operator[]` creates a missing channel record. -/
def leaveChannel (cp : ChatProcessor) (clientId : ConnectionId) (channelName : Str) :
    Bool × ChatProcessor :=
  let s := (mapGet? cp.m_channels channelName).getD []
  let r := setRemove s clientId
  (r.1, { cp with m_channels := mapSet cp.m_channels channelName r.2 })

/-- `ChatProcessor::clientChannels`: names of channels containing the client. -/
def clientChannels (cp : ChatProcessor) (clientId : ConnectionId) : List Str :=
  cp.m_channels.filterMap (fun p => if p.2.contains clientId then some p.1 else none)

/-- `ChatProcessor::activeChannels`: names of non-empty channels. -/
def activeChannels (cp : ChatProcessor) : List Str :=
  cp.m_channels.filterMap (fun p => if p.2 = [] then none else some p.1)

/-- `for (auto channel : clientChannels(clientId)) leaveChannel(clientId, channel)`. -/
def leaveAllChannels (cp : ChatProcessor) (clientId : ConnectionId) :
    List Str → ChatProcessor
  | [] => cp
  | ch :: rest => leaveAllChannels (leaveChannel cp clientId ch).2 clientId rest

/-- `ChatProcessor::disconnectClient`.  `m_clients.take` fails on a missing
key (`MapException`), modelled as `none`. -/
def disconnectClient (cp : ChatProcessor) (clientId : ConnectionId) :
    Option (List ChatReceivedMessage × ChatProcessor) :=
  let cp1 := leaveAllChannels cp clientId (clientChannels cp clientId)
  match mapGet? cp1.m_clients clientId with
  | none => none
  | some clientInfo =>
    let clients1 := mapRemove cp1.m_clients clientId
    let nicks1 := mapRemove cp1.m_nicks clientInfo.nick
    some ( clientInfo.pendingMessages
         , { m_clients := appendAll clients1 (disconnectedNotice clientInfo.nick)
             m_nicks := nicks1
             m_channels := cp1.m_channels } )

/-- `ChatProcessor::hasClient`. -/
def hasClient (cp : ChatProcessor) (clientId : ConnectionId) : Bool :=
  mapContains cp.m_clients clientId

/-- `ChatProcessor::findNick`: the nickname index, with the reserved server
nickname also recognized. -/
def findNick (cp : ChatProcessor) (nick : Str) : Option ConnectionId :=
  match mapGet? cp.m_nicks nick with
  | some m => some m
  | none => if nick = ServerNick then some ServerConnectionId else none

/-- `ChatProcessor::connectionNick`: `m_clients.get` fails on a missing key,
modelled as `none`. -/
def connectionNick (cp : ChatProcessor) (clientId : ConnectionId) : Option Str :=
  if clientId = ServerConnectionId then some ServerNick
  else (mapGet? cp.m_clients clientId).map (fun c => c.nick)

/-- `ChatProcessor::renick`.  Faithfully models the source's double assignment:
the session nickname is first set to `makeNickUnique(nick)` and then
immediately overwritten with the raw `nick`, which is also what is indexed and
returned. -/
def renick (cp : ChatProcessor) (clientId : ConnectionId) (nick : Str) :
    Option (Str × ChatProcessor) :=
  match mapGet? cp.m_clients clientId with
  | none => none
  | some clientInfo =>
    let nicks1 := mapRemove cp.m_nicks clientInfo.nick
    let unique := makeNickUnique nicks1 nick
    let clients1 := mapUpdate cp.m_clients clientId (fun c => { c with nick := unique })
    let clients2 := mapUpdate clients1 clientId (fun c => { c with nick := nick })
    some (nick, { cp with m_clients := clients2, m_nicks := mapSet nicks1 nick clientId })

/-- `ChatProcessor::pullPendingMessages`: guarded by `m_clients.contains`. -/
def pullPendingMessages (cp : ChatProcessor) (clientId : ConnectionId) :
    List ChatReceivedMessage × ChatProcessor :=
  match mapGet? cp.m_clients clientId with
  | none => ([], cp)
  | some clientInfo =>
    ( clientInfo.pendingMessages
    , { cp with
        m_clients := mapUpdate cp.m_clients clientId
          (fun c => { c with pendingMessages := [] }) } )

/-- The `w` command's target/message extraction from the raw argument string
(the body of the `command == "w"` branch of `ChatProcessor::handleCommand`). -/
def wSplit (commandLine : Str) : Str × Str :=
  if beginsWith commandLine (sOf "\"") then
    match strFind? '\"' (commandLine.drop 1) with
    | some j => ((commandLine.drop 1).take j, strTrim ((commandLine.drop 1).drop (j + 1)))
    | none => ([], [])
  else
    let r := extract commandLine
    (r.1, strTrim r.2)

/-- Queue a non-empty `CommandResult` response back to the issuing connection
(the tail of `ChatProcessor::handleCommand`); `m_clients.get` fails on a
missing key, modelled as `none`. -/
def finishResponse (cp : ChatProcessor) (issuer : ConnectionId) (response : Str) :
    Option ChatProcessor :=
  if mapContains cp.m_clients issuer then
    some (appendTo cp issuer
      { context := { mode := MessageMode.CommandResult, channelName := [] }
        fromConnection := ServerConnectionId
        fromNick := ServerNick
        text := response })
  else none

mutual

/-- `ChatProcessor::handleCommand`.  Returns whether the text was consumed as
a command, the (possibly escape-stripped) message, and the new state; `none`
models a raised `MapException` or exhausted recursion fuel (the fuel decreases
on the mutual `whisper` call; entry points supply `text.length + 1`, which is
ample because each nesting level strips at least the `/w ` prefix). -/
def handleCommand (h? : Option CommandHandler) :
    Nat → ChatProcessor → ChatReceivedMessage →
    Option (Bool × ChatReceivedMessage × ChatProcessor)
  | 0, _, _ => none
  | fuel + 1, cp, msg =>
    if !beginsWith msg.text (sOf "/") then
      some (false, msg, cp)
    else if beginsWith msg.text (sOf "//") then
      some (false, { msg with text := msg.text.drop 1 }, cp)
    else
      let e := extract (msg.text.drop 1)
      let command := e.1
      let commandLine := e.2
      if command = sOf "nick" then
        match renick cp msg.fromConnection (strTrim commandLine) with
        | none => none
        | some (newNick, cp1) =>
          (finishResponse cp1 msg.fromConnection (sOf "Nick changed to " ++ newNick)).map
            (fun cp2 => (true, msg, cp2))
      else if command = sOf "w" then
        let tm := wSplit commandLine
        match mapGet? cp.m_nicks tm.1 with
        | some targetId =>
          (whisper h? fuel cp msg.fromConnection targetId tm.2).map
            (fun cp1 => (true, msg, cp1))
        | none =>
          (finishResponse cp msg.fromConnection (sOf "No such nick " ++ tm.1)).map
            (fun cp1 => (true, msg, cp1))
      else
        match h? with
        | some h =>
          let response := h msg.fromConnection command commandLine
          if response = [] then some (true, msg, cp)
          else (finishResponse cp msg.fromConnection response).map
            (fun cp1 => (true, msg, cp1))
        | none =>
          (finishResponse cp msg.fromConnection (sOf "No such command " ++ command)).map
            (fun cp1 => (true, msg, cp1))

/-- `ChatProcessor::whisper` (fuelled body; the entry point is `whisperOp`). -/
def whisper (h? : Option CommandHandler) :
    Nat → ChatProcessor → ConnectionId → ConnectionId → Str → Option ChatProcessor
  | 0, _, _, _, _ => none
  | fuel + 1, cp, sourceConnectionId, targetClientId, text =>
    match connectionNick cp sourceConnectionId with
    | none => none
    | some snick =>
      let msg : ChatReceivedMessage :=
        { context := { mode := MessageMode.Whisper, channelName := [] }
          fromConnection := sourceConnectionId
          fromNick := snick
          text := text }
      match handleCommand h? fuel cp msg with
      | none => none
      | some (true, _, cp1) => some cp1
      | some (false, msg1, cp1) =>
        let step1 : Option ChatProcessor :=
          if sourceConnectionId = ServerConnectionId then some cp1
          else if mapContains cp1.m_clients sourceConnectionId then
            some (appendTo cp1 sourceConnectionId msg1)
          else none
        match step1 with
        | none => none
        | some cp2 =>
          if mapContains cp2.m_clients targetClientId then
            some (appendTo cp2 targetClientId msg1)
          else none

end

/-- `ChatProcessor::broadcast`. -/
def broadcast (h? : Option CommandHandler) (cp : ChatProcessor)
    (sourceConnectionId : ConnectionId) (text : Str) : Option ChatProcessor :=
  match connectionNick cp sourceConnectionId with
  | none => none
  | some snick =>
    let msg : ChatReceivedMessage :=
      { context := { mode := MessageMode.Broadcast, channelName := [] }
        fromConnection := sourceConnectionId
        fromNick := snick
        text := text }
    match handleCommand h? (text.length + 1) cp msg with
    | none => none
    | some (true, _, cp1) => some cp1
    | some (false, msg1, cp1) => some { cp1 with m_clients := appendAll cp1.m_clients msg1 }

/-- Deliver a channel message to each member in turn (`m_clients.get` fails on
a missing member, modelled as `none`). -/
def deliverToMembers (cp : ChatProcessor) (msg : ChatReceivedMessage) :
    List ConnectionId → Option ChatProcessor
  | [] => some cp
  | clientId :: rest =>
    if mapContains cp.m_clients clientId then
      deliverToMembers (appendTo cp clientId msg) msg rest
    else none

/-- `ChatProcessor::message` (channel message).  `m_channels[channelName]`
creates a missing channel record (after command handling has not consumed the
text). -/
def message (h? : Option CommandHandler) (cp : ChatProcessor)
    (sourceConnectionId : ConnectionId) (mode : MessageMode) (channelName : Str)
    (text : Str) : Option ChatProcessor :=
  match connectionNick cp sourceConnectionId with
  | none => none
  | some snick =>
    let msg : ChatReceivedMessage :=
      { context := { mode := mode, channelName := channelName }
        fromConnection := sourceConnectionId
        fromNick := snick
        text := text }
    match handleCommand h? (text.length + 1) cp msg with
    | none => none
    | some (true, _, cp1) => some cp1
    | some (false, msg1, cp1) =>
      let members := (mapGet? cp1.m_channels channelName).getD []
      let cp2 := { cp1 with m_channels := mapSet cp1.m_channels channelName members }
      deliverToMembers cp2 msg1 members

/-- `ChatProcessor::whisper` as a public entry point, with ample fuel. -/
def whisperOp (h? : Option CommandHandler) (cp : ChatProcessor)
    (sourceConnectionId targetClientId : ConnectionId) (text : Str) :
    Option ChatProcessor :=
  whisper h? (text.length + 1) cp sourceConnectionId targetClientId text

/-- The names a candidate nickname can collide with (used to bound the fuel of
`makeNickUnique`). -/
def takenNames (nicks : AMap Str ConnectionId) : List Str :=
  ServerNick :: nicks.map Prod.fst

/-- The spec description of the `w` target extraction, stated independently of
the code for the refinement comparison: if the argument begins with a quote
character, the target is everything between that quote and the next occurring
quote character and the message text is everything after the closing quote
(trimmed); otherwise the target is the first whitespace-delimited token and
the message text is the remainder (trimmed). -/
def specWSplit (arg : Str) : Str × Str :=
  if beginsWith arg (sOf "\x22") then
    let between := (arg.drop 1).takeWhile (fun c => !decide (c = '\x22'))
    (between, strTrim ((arg.drop 1).drop (between.length + 1)))
  else
    ((arg.dropWhile isSpaceCh).takeWhile (fun c => !isSpaceCh c),
     strTrim ((arg.dropWhile isSpaceCh).dropWhile (fun c => !isSpaceCh c)))

/-! ## Basic lemmas about the association-map model -/

theorem mapGet?_nil [DecidableEq α] (k : α) : mapGet? ([] : AMap α β) k = none := rfl

theorem mapGet?_cons [DecidableEq α] (p : α × β) (m : AMap α β) (k : α) :
    mapGet? (p :: m) k = if p.1 = k then some p.2 else mapGet? m k := by
  by_cases h : p.1 = k <;> simp [mapGet?, List.find?_cons, h]

theorem mapGet?_append_single [DecidableEq α] (m : AMap α β) (k j : α) (v : β) :
    mapGet? (m ++ [(k, v)]) j =
      match mapGet? m j with
      | some w => some w
      | none => if j = k then some v else none := by
  induction m with
  | nil =>
    by_cases h : j = k <;> simp [mapGet?_nil, mapGet?_cons, h]
    · exact fun h2 => absurd h2.symm h
  | cons p rest ih =>
    by_cases h : p.1 = j <;> simp [mapGet?_cons, h, ih]

theorem mapGet?_mapOverwrite [DecidableEq α] (m : AMap α β) (k j : α) (v : β) :
    mapGet? (m.map (fun p => if p.1 = k then (k, v) else p)) j =
      if j = k then (mapGet? m k).map (fun _ => v) else mapGet? m j := by
  induction m with
  | nil => by_cases hj : j = k <;> simp [mapGet?_nil, hj]
  | cons p rest ih =>
    by_cases hp : p.1 = k <;> by_cases hj : j = k <;> by_cases hpj : p.1 = j <;>
      simp_all [mapGet?_cons, List.map_cons]

theorem mapGet?_ne_none_of_mem [DecidableEq α] (m : AMap α β) (q : α × β)
    (hq : q ∈ m) : mapGet? m q.1 ≠ none := by
  induction m with
  | nil => simp at hq
  | cons p rest ih =>
    rcases List.mem_cons.mp hq with rfl | hmem
    · simp [mapGet?_cons]
    · by_cases hp : p.1 = q.1
      · simp [mapGet?_cons, hp]
      · simpa [mapGet?_cons, hp] using ih hmem

theorem mapGet?_mapSet [DecidableEq α] (m : AMap α β) (k j : α) (v : β) :
    mapGet? (mapSet m k v) j = if j = k then some v else mapGet? m j := by
  unfold mapSet
  by_cases hc : mapContains m k = true
  · rw [if_pos hc, mapGet?_mapOverwrite]
    by_cases hj : j = k
    · subst hj
      obtain ⟨w, hw⟩ := Option.isSome_iff_exists.mp (by simpa [mapContains] using hc)
      simp [hw]
    · simp [hj]
  · rw [if_neg (by simp [hc]), mapGet?_append_single]
    by_cases hj : j = k
    · subst hj
      have hnone : mapGet? m j = none := by
        cases hg : mapGet? m j with
        | none => rfl
        | some w => simp [mapContains, hg] at hc
      simp [hnone]
    · cases hg : mapGet? m j <;> simp [hg, hj]

theorem mapGet?_mapRemove [DecidableEq α] (m : AMap α β) (k j : α) :
    mapGet? (mapRemove m k) j = if j = k then none else mapGet? m j := by
  induction m with
  | nil => simp [mapRemove, mapGet?_nil]
  | cons p rest ih =>
    by_cases hp : p.1 = k <;> by_cases hj : j = k <;> by_cases hpj : p.1 = j <;>
      simp_all [mapRemove, mapGet?_cons, List.filter_cons]

theorem mapGet?_mapUpdate [DecidableEq α] (m : AMap α β) (k j : α) (f : β → β) :
    mapGet? (mapUpdate m k f) j =
      if j = k then (mapGet? m j).map f else mapGet? m j := by
  induction m with
  | nil => simp [mapUpdate, mapGet?_nil]
  | cons p rest ih =>
    by_cases hp : p.1 = k <;> by_cases hj : j = k <;> by_cases hpj : p.1 = j <;>
      simp_all [mapUpdate, mapGet?_cons, List.map_cons]

theorem mapGet?_appendAll (m : AMap ConnectionId ClientInfo) (msg : ChatReceivedMessage)
    (j : ConnectionId) :
    mapGet? (appendAll m msg) j =
      (mapGet? m j).map
        (fun c => { c with pendingMessages := c.pendingMessages ++ [msg] }) := by
  induction m with
  | nil => simp [appendAll, mapGet?_nil]
  | cons p rest ih =>
    by_cases hpj : p.1 = j <;> simp_all [appendAll, mapGet?_cons, List.map_cons]

theorem mem_mapSet [DecidableEq α] (m : AMap α β) (k : α) (v : β) (q : α × β)
    (hq : q ∈ mapSet m k v) : q = (k, v) ∨ (q ∈ m ∧ ¬(q.1 = k)) := by
  unfold mapSet at hq
  by_cases hc : mapContains m k = true
  · simp only [hc, if_true, List.mem_map] at hq
    obtain ⟨p, hp, hfp⟩ := hq
    by_cases hpk : p.1 = k
    · left; simp [hpk] at hfp; exact hfp.symm
    · right; simp [hpk] at hfp; subst hfp; exact ⟨hp, hpk⟩
  · rw [if_neg (by simp [hc])] at hq
    rcases List.mem_append.mp hq with h | h
    · right
      refine ⟨h, fun hk => ?_⟩
      have := mapGet?_ne_none_of_mem m q h
      rw [hk] at this
      simp [mapContains] at hc
      exact this hc
    · left; simpa using h

theorem setRemove_not_mem (s : List ConnectionId) (x : ConnectionId) :
    x ∉ (setRemove s x).2 := by
  unfold setRemove
  by_cases h : s.contains x = true
  · rw [if_pos h]
    intro hmem
    have := (List.mem_filter.mp hmem).2
    simp at this
  · rw [if_neg h]
    simpa using h

/-! ## Lemmas about disconnecting: leaving all channels -/

theorem leaveAllChannels_clients (cp : ChatProcessor) (id : ConnectionId) (L : List Str) :
    (leaveAllChannels cp id L).m_clients = cp.m_clients := by
  induction L generalizing cp with
  | nil => rfl
  | cons ch rest ih => simpa [leaveAllChannels, leaveChannel] using ih _

theorem leaveAllChannels_nicks (cp : ChatProcessor) (id : ConnectionId) (L : List Str) :
    (leaveAllChannels cp id L).m_nicks = cp.m_nicks := by
  induction L generalizing cp with
  | nil => rfl
  | cons ch rest ih => simpa [leaveAllChannels, leaveChannel] using ih _

theorem leaveAllChannels_entries (id : ConnectionId) (L : List Str) :
    ∀ (cp : ChatProcessor),
      (∀ p ∈ cp.m_channels, id ∈ p.2 → p.1 ∈ L) →
      ∀ p ∈ (leaveAllChannels cp id L).m_channels, id ∉ p.2 := by
  induction L with
  | nil =>
    intro cp hcov p hp hid
    exact absurd (hcov p hp hid) (List.not_mem_nil _)
  | cons ch rest ih =>
    intro cp hcov p hp
    refine ih _ ?_ p hp
    intro q hq hqc
    have hmem := mem_mapSet _ _ _ q hq
    rcases hmem with rfl | ⟨hqm, hqk⟩
    · exact absurd hqc (setRemove_not_mem _ _)
    · have := hcov q hqm hqc
      rcases List.mem_cons.mp this with h | h
      · exact absurd h hqk
      · exact h

theorem clientChannels_covers (cp : ChatProcessor) (id : ConnectionId) :
    ∀ p ∈ cp.m_channels, id ∈ p.2 → p.1 ∈ clientChannels cp id := by
  intro p hp hc
  unfold clientChannels
  exact List.mem_filterMap.mpr ⟨p, hp, by simp [hc]⟩

/-! ## String-level helper lemmas -/

theorem beginsWith_slashslash_slash (text : Str)
    (h : beginsWith text (sOf "//") = true) : beginsWith text (sOf "/") = true := by
  have e2 : sOf "//" = ['/', '/'] := rfl
  have e1 : sOf "/" = ['/'] := rfl
  rw [e2] at h
  rw [e1]
  cases text with
  | nil => simp [beginsWith] at h
  | cons c s =>
    simp [beginsWith] at h ⊢
    exact h.1

theorem dropWhile_dropWhile (p : Char → Bool) (l : Str) :
    (l.dropWhile p).dropWhile p = l.dropWhile p := by
  induction l with
  | nil => rfl
  | cons a l ih => by_cases h : p a <;> simp [List.dropWhile_cons, h, ih]

theorem strTrim_dropWhile (l : Str) :
    strTrim (l.dropWhile isSpaceCh) = strTrim l := by
  simp [strTrim, dropWhile_dropWhile]

theorem strFind?_take (c : Char) (l : Str) :
    ∀ j, strFind? c l = some j →
      l.take j = l.takeWhile (fun x => !decide (x = c)) ∧
      (l.takeWhile (fun x => !decide (x = c))).length = j := by
  induction l with
  | nil => intro j h; simp [strFind?] at h
  | cons x xs ih =>
    intro j h
    by_cases hx : x = c
    · simp [strFind?, hx] at h
      subst h
      simp [List.takeWhile_cons, hx]
    · simp [strFind?, hx] at h
      obtain ⟨j', hj', rfl⟩ := h
      obtain ⟨h1, h2⟩ := ih j' hj'
      simp [List.takeWhile_cons, hx, List.take_succ_cons, h1, h2]

/-! ## The fuel in `makeNickUnique` always suffices -/

theorem countP_lt_of_mem (l : List Str) (p q : Str → Bool) (a : Str) (ha : a ∈ l)
    (hpa : p a = true) (hqa : q a = false) (himp : ∀ x ∈ l, q x = true → p x = true) :
    l.countP q < l.countP p := by
  induction l with
  | nil => simp at ha
  | cons b l ih =>
    rcases List.mem_cons.mp ha with rfl | hmem
    · have h1 : l.countP q ≤ l.countP p :=
        List.countP_mono_left (fun x hx => himp x (List.mem_cons_of_mem _ hx))
      simp [List.countP_cons, hpa, hqa]
      omega
    · have hrec := ih hmem (fun x hx => himp x (List.mem_cons_of_mem _ hx))
      by_cases hqb : q b = true
      · have hpb := himp b (List.mem_cons_self _ _) hqb
        simp [List.countP_cons, hpb, hqb]
        omega
      · simp [List.countP_cons, hqb]
        by_cases hpb : p b = true <;> simp [hpb] <;> omega

theorem mem_takenNames_of_collides (nicks : AMap Str ConnectionId) (nick : Str)
    (h : (mapContains nicks nick || decide (nick = ServerNick)) = true) :
    nick ∈ takenNames nicks := by
  rcases Bool.or_eq_true_iff.mp h with hc | hs
  · unfold mapContains mapGet? at hc
    cases hf : nicks.find? (fun p => decide (p.1 = nick)) with
    | none => simp [hf] at hc
    | some q =>
      have hmem := List.mem_of_find?_eq_some hf
      have hkey : q.1 = nick := by simpa using List.find?_some hf
      exact List.mem_cons_of_mem _ (hkey ▸ List.mem_map_of_mem Prod.fst hmem)
  · exact (by simpa using hs : nick = ServerNick) ▸ List.mem_cons_self _ _

theorem makeNickUniqueAux_free (nicks : AMap Str ConnectionId) :
    ∀ fuel nick,
      (takenNames nicks).countP (fun s => decide (nick.length ≤ s.length)) < fuel →
      (mapContains nicks (makeNickUniqueAux nicks fuel nick) ||
        decide (makeNickUniqueAux nicks fuel nick = ServerNick)) = false := by
  intro fuel
  induction fuel with
  | zero => intro nick h; omega
  | succ fuel ih =>
    intro nick h
    unfold makeNickUniqueAux
    cases htaken : (mapContains nicks nick || decide (nick = ServerNick)) with
    | false =>
      rw [if_neg (by simp [htaken])]
      exact htaken
    | true =>
      simp only [htaken, if_true]
      refine ih (nick ++ ['_']) ?_
      have hmem := mem_takenNames_of_collides nicks nick htaken
      have hdec :
          (takenNames nicks).countP (fun s => decide ((nick ++ ['_']).length ≤ s.length)) <
            (takenNames nicks).countP (fun s => decide (nick.length ≤ s.length)) := by
        refine countP_lt_of_mem _ _ _ nick hmem (by simp) (by simp [List.length_append]) ?_
        intro x _ hx
        simp only [decide_eq_true_eq, List.length_append] at hx ⊢
        omega
      omega

/-- The result of `makeNickUnique` collides with no existing nickname and is
not the reserved server nickname: the definition's fuel always suffices. -/
theorem makeNickUnique_free (nicks : AMap Str ConnectionId) (nick : Str) :
    mapContains nicks (makeNickUnique nicks nick) = false ∧
    makeNickUnique nicks nick ≠ ServerNick := by
  have hb : (takenNames nicks).countP (fun s => decide (nick.length ≤ s.length)) <
      nicks.length + 2 := by
    have h1 := List.countP_le_length
      (p := fun s => decide (nick.length ≤ s.length)) (l := takenNames nicks)
    have h2 : (takenNames nicks).length = nicks.length + 1 := by
      simp [takenNames]
    omega
  have := makeNickUniqueAux_free nicks (nicks.length + 2) nick hb
  rw [Bool.or_eq_false_iff] at this
  exact ⟨this.1, by simpa using this.2⟩

/-! ## Computation lemmas for the command interpreter -/

theorem handleCommand_not_command (h? : Option CommandHandler) (fuel : Nat)
    (cp : ChatProcessor) (msg : ChatReceivedMessage)
    (h : beginsWith msg.text (sOf "/") = false) :
    handleCommand h? (fuel + 1) cp msg = some (false, msg, cp) := by
  unfold handleCommand
  simp [h]

theorem handleCommand_escaped (h? : Option CommandHandler) (fuel : Nat)
    (cp : ChatProcessor) (msg : ChatReceivedMessage)
    (h1 : beginsWith msg.text (sOf "/") = true)
    (h2 : beginsWith msg.text (sOf "//") = true) :
    handleCommand h? (fuel + 1) cp msg =
      some (false, { msg with text := msg.text.drop 1 }, cp) := by
  unfold handleCommand
  simp [h1, h2]

theorem extract_w (rest : Str) (hlead : rest.dropWhile isSpaceCh = rest) :
    extract ('w' :: ' ' :: rest) = (['w'], rest) := by
  have hw : isSpaceCh 'w' = false := rfl
  have hs : isSpaceCh ' ' = true := rfl
  simp [extract, List.dropWhile_cons, List.takeWhile_cons, hw, hs, hlead]

theorem appendTo_nicks (cp : ChatProcessor) (id : ConnectionId) (m : ChatReceivedMessage) :
    (appendTo cp id m).m_nicks = cp.m_nicks := rfl

theorem appendTo_channels (cp : ChatProcessor) (id : ConnectionId) (m : ChatReceivedMessage) :
    (appendTo cp id m).m_channels = cp.m_channels := rfl

/-! ## The claims -/

/-- **C1.** The claim states that after `Rename(id, n)` the nickname stored in
the session record, the nickname stored in the nickname index, and the
returned nickname all equal the post-uniqueness-resolution name.  The code
(`ChatProcessor::renick`) computes `makeNickUnique(nick)`, assigns it to the
session, then immediately overwrites the session nickname with the raw
requested `nick`, indexes the raw `nick`, and returns the raw `nick`.  At the
failing input below the raw name `"A"` collides with an existing session's
nickname, the post-uniqueness-resolution name is `"A_"`, yet `"A"` is what is
stored and returned. -/
theorem c1_renick_stores_raw_nick :
    renick (⟨[(1, ⟨1, sOf "A", []⟩), (2, ⟨2, sOf "B", []⟩)],
             [(sOf "A", 1), (sOf "B", 2)], []⟩ : ChatProcessor) 2 (sOf "A") =
      some (sOf "A",
        ⟨[(1, ⟨1, sOf "A", []⟩), (2, ⟨2, sOf "A", []⟩)],
         [(sOf "A", 2)], []⟩) ∧
    makeNickUnique [(sOf "A", 1)] (sOf "A") = sOf "A_" ∧
    sOf "A_" ≠ sOf "A" := by decide

/-- **C2.** The claim states that no two active sessions share a nickname
after every sequence of Connect and Rename calls from the empty state.  The
concrete sequence Connect(1,"A"); Connect(2,"B"); Rename(2,"A") leaves both
sessions with nickname "A", because `renick` stores the raw requested name
instead of the unique-resolved one. -/
theorem c2_rename_breaks_nick_uniqueness :
    ((renick (connectClient (connectClient ⟨[], [], []⟩ 1 (sOf "A")).2 2
        (sOf "B")).2 2 (sOf "A")).map
      (fun r => ((mapGet? r.2.m_clients 1).map (fun c => c.nick),
                 (mapGet? r.2.m_clients 2).map (fun c => c.nick)))) =
      some (some (sOf "A"), some (sOf "A")) := by decide

/-- **C4 counterexample.** The claim states that Leave on a channel no one has
ever joined does not create a channel record.  In the code `leaveChannel` uses
`m_channels[channelName]`, whose `operator[]` default-constructs the record:
leaving the never-joined channel `"c"` of the empty state creates an (empty)
record for `"c"`. -/
theorem c4_leave_creates_channel_record :
    mapContains
      ((leaveChannel (⟨[], [], []⟩ : ChatProcessor) 1 (sOf "c")).2).m_channels
      (sOf "c") = true := by decide

/-- **C8 counterexample.**  The claim states Disconnect on an
already-disconnected id succeeds as a state-preserving no-op returning an
empty sequence.  Connecting and then disconnecting id 1 leaves the empty
state, and a second `disconnectClient` fails (`m_clients.take` on a missing
key), modelled as `none` — it is not a no-op result. -/
theorem c8_double_disconnect_fails :
    disconnectClient (connectClient ⟨[], [], []⟩ 1 (sOf "A")).2 1 =
      some ([], (⟨[], [], []⟩ : ChatProcessor)) ∧
    disconnectClient (⟨[], [], []⟩ : ChatProcessor) 1 = none := by decide

/-- **C8 (amended).** Disconnect on an id with no session record is not
tolerated: the session lookup (`m_clients.take`) fails; only
DrainQueue-after-Disconnect is tolerated, returning an empty sequence and
leaving the state unchanged. -/
theorem c8_disconnect_missing_fails (cp : ChatProcessor) (id : ConnectionId)
    (h : mapGet? cp.m_clients id = none) :
    disconnectClient cp id = none ∧ pullPendingMessages cp id = ([], cp) := by
  constructor
  · simp only [disconnectClient]
    rw [show (leaveAllChannels cp id (clientChannels cp id)).m_clients = cp.m_clients
        from leaveAllChannels_clients cp id _]
    rw [h]
  · simp [pullPendingMessages, h]

/-- Witness for C8: concrete application of `c8_disconnect_missing_fails`. -/
theorem c8_disconnect_missing_fails_witness :
    disconnectClient (⟨[], [], []⟩ : ChatProcessor) 7 = none ∧
    pullPendingMessages (⟨[], [], []⟩ : ChatProcessor) 7 =
      ([], (⟨[], [], []⟩ : ChatProcessor)) :=
  c8_disconnect_missing_fails ⟨[], [], []⟩ 7 (by decide)

/-- **C9.** `pullPendingMessages` on a connected id returns the stored pending
queue in order and leaves that queue empty, changing nothing else; on an
absent (never-connected or already-disconnected) id it returns the empty
sequence and the state unchanged. -/
theorem c9_drain_queue (cp : ChatProcessor) (id : ConnectionId) :
    (∀ ci, mapGet? cp.m_clients id = some ci →
      (pullPendingMessages cp id).1 = ci.pendingMessages ∧
      mapGet? (pullPendingMessages cp id).2.m_clients id =
        some { ci with pendingMessages := [] } ∧
      (∀ j, j ≠ id →
        mapGet? (pullPendingMessages cp id).2.m_clients j = mapGet? cp.m_clients j) ∧
      (pullPendingMessages cp id).2.m_nicks = cp.m_nicks ∧
      (pullPendingMessages cp id).2.m_channels = cp.m_channels) ∧
    (mapGet? cp.m_clients id = none → pullPendingMessages cp id = ([], cp)) := by
  constructor
  · intro ci hci
    have hpull : pullPendingMessages cp id =
        (ci.pendingMessages,
         { cp with
           m_clients :=
             mapUpdate cp.m_clients id (fun c => { c with pendingMessages := [] }) }) := by
      simp only [pullPendingMessages, hci]
    rw [hpull]
    refine ⟨rfl, ?_, ?_, rfl, rfl⟩
    · rw [mapGet?_mapUpdate]
      simp [hci]
    · intro j hj
      rw [mapGet?_mapUpdate]
      simp [hj]
  · intro h
    simp [pullPendingMessages, h]

/-- Witness for C9: concrete application of `c9_drain_queue` on both a
connected and a never-connected id. -/
theorem c9_drain_queue_witness :
    (pullPendingMessages
      (⟨[(1, ⟨1, sOf "A",
            [⟨⟨MessageMode.Broadcast, []⟩, 0, ServerNick, sOf "hi"⟩]⟩)],
        [(sOf "A", 1)], []⟩ : ChatProcessor) 1).1 =
      [⟨⟨MessageMode.Broadcast, []⟩, 0, ServerNick, sOf "hi"⟩] ∧
    pullPendingMessages
      (⟨[(1, ⟨1, sOf "A",
            [⟨⟨MessageMode.Broadcast, []⟩, 0, ServerNick, sOf "hi"⟩]⟩)],
        [(sOf "A", 1)], []⟩ : ChatProcessor) 2 =
      ([], ⟨[(1, ⟨1, sOf "A",
            [⟨⟨MessageMode.Broadcast, []⟩, 0, ServerNick, sOf "hi"⟩]⟩)],
        [(sOf "A", 1)], []⟩) :=
  ⟨((c9_drain_queue
      ⟨[(1, ⟨1, sOf "A",
            [⟨⟨MessageMode.Broadcast, []⟩, 0, ServerNick, sOf "hi"⟩]⟩)],
        [(sOf "A", 1)], []⟩ 1).1
      ⟨1, sOf "A", [⟨⟨MessageMode.Broadcast, []⟩, 0, ServerNick, sOf "hi"⟩]⟩
      (by decide)).1,
   (c9_drain_queue
      ⟨[(1, ⟨1, sOf "A",
            [⟨⟨MessageMode.Broadcast, []⟩, 0, ServerNick, sOf "hi"⟩]⟩)],
        [(sOf "A", 1)], []⟩ 2).2 (by decide)⟩

/-- **C10.** `renick` with an empty requested nickname does not synthesize a
default name from the connection identifier: the stored and returned nickname
is the empty string itself (in particular not `"Player_{id}"`, which `connect`
would synthesize). -/
theorem c10_renick_empty_no_default (cp : ChatProcessor) (id : ConnectionId)
    (ci : ClientInfo) (hci : mapGet? cp.m_clients id = some ci) :
    ∃ cp', renick cp id [] = some ([], cp') ∧
      (mapGet? cp'.m_clients id).map (fun c => c.nick) = some ([] : Str) ∧
      mapGet? cp'.m_nicks [] = some id ∧
      ([] : Str) ≠ sOf "Player_" ++ natToStr id := by
  simp only [renick, hci]
  refine ⟨_, rfl, ?_, ?_, ?_⟩
  · rw [mapGet?_mapUpdate, mapGet?_mapUpdate]
    simp [hci]
  · rw [mapGet?_mapSet]
    simp
  · intro h
    have hlen := congrArg List.length h
    have h7 : (sOf "Player_").length = 7 := rfl
    simp [List.length_append, h7] at hlen
    omega

/-- Witness for C10: concrete application of `c10_renick_empty_no_default`. -/
theorem c10_renick_empty_no_default_witness :
    ∃ cp', renick (⟨[(1, ⟨1, sOf "A", []⟩)], [(sOf "A", 1)], []⟩ : ChatProcessor)
        1 [] = some ([], cp') ∧
      (mapGet? cp'.m_clients 1).map (fun c => c.nick) = some ([] : Str) ∧
      mapGet? cp'.m_nicks [] = some 1 ∧
      ([] : Str) ≠ sOf "Player_" ++ natToStr 1 :=
  c10_renick_empty_no_default _ 1 ⟨1, sOf "A", []⟩ (by decide)

/-- **C4 (amended).** A channel record is created on first Join (which reports
a membership change) and persists even when empty; however, Leave on a
never-joined channel and a ChannelMessage (text not consumed as a command)
addressed to a never-joined channel also create an (empty) record, so absence
of a key implies never-joined but presence does not imply ever-joined.  The
pure queries do not create records and report an absent channel exactly like
an empty one: it contains no member and is not active. -/
theorem c4_channel_record_creation (cp : ChatProcessor) (id : ConnectionId) (ch : Str)
    (habsent : mapGet? cp.m_channels ch = none) :
    (mapGet? ((joinChannel cp id ch).2).m_channels ch = some [id] ∧
      (joinChannel cp id ch).1 = true) ∧
    (mapGet? ((leaveChannel cp id ch).2).m_channels ch = some [] ∧
      (leaveChannel cp id ch).1 = false) ∧
    (ch ∉ clientChannels cp id ∧ ch ∉ activeChannels cp) ∧
    (∀ h? src snick mode text, connectionNick cp src = some snick →
      beginsWith text (sOf "/") = false →
      ∃ cp', message h? cp src mode ch text = some cp' ∧
        mapGet? cp'.m_channels ch = some [] ∧
        cp'.m_clients = cp.m_clients ∧ cp'.m_nicks = cp.m_nicks) := by
  refine ⟨?_, ?_, ⟨?_, ?_⟩, ?_⟩
  · constructor
    · simp [joinChannel, habsent, setAdd, mapGet?_mapSet]
    · simp [joinChannel, habsent, setAdd]
  · constructor
    · simp [leaveChannel, habsent, setRemove, mapGet?_mapSet]
    · simp [leaveChannel, habsent, setRemove]
  · intro hmem
    obtain ⟨p, hp, hif⟩ := List.mem_filterMap.mp hmem
    simp at hif
    apply mapGet?_ne_none_of_mem cp.m_channels p hp
    rw [hif.2]
    exact habsent
  · intro hmem
    obtain ⟨p, hp, hif⟩ := List.mem_filterMap.mp hmem
    simp at hif
    apply mapGet?_ne_none_of_mem cp.m_channels p hp
    rw [hif.2]
    exact habsent
  · intro h? src snick mode text hsnick hplain
    simp only [message, hsnick]
    rw [handleCommand_not_command h? text.length cp _ (by simpa using hplain)]
    simp only [habsent, Option.getD_none]
    exact ⟨_, rfl, by rw [mapGet?_mapSet]; simp, rfl, rfl⟩

/-- Witness for C4: concrete application of `c4_channel_record_creation` at a
one-client state and the never-joined channel `"c"`. -/
theorem c4_channel_record_creation_witness :
    (mapGet? ((joinChannel
        (⟨[(1, ⟨1, sOf "A", []⟩)], [(sOf "A", 1)], []⟩ : ChatProcessor)
        1 (sOf "c")).2).m_channels (sOf "c") = some [1] ∧
      (joinChannel (⟨[(1, ⟨1, sOf "A", []⟩)], [(sOf "A", 1)], []⟩ : ChatProcessor)
        1 (sOf "c")).1 = true) ∧
    (∃ cp', message none
        (⟨[(1, ⟨1, sOf "A", []⟩)], [(sOf "A", 1)], []⟩ : ChatProcessor)
        1 MessageMode.Local (sOf "c") (sOf "hello") = some cp' ∧
      mapGet? cp'.m_channels (sOf "c") = some [] ∧
      cp'.m_clients = [(1, ⟨1, sOf "A", []⟩)] ∧
      cp'.m_nicks = [(sOf "A", 1)]) :=
  ⟨(c4_channel_record_creation
      ⟨[(1, ⟨1, sOf "A", []⟩)], [(sOf "A", 1)], []⟩ 1 (sOf "c") (by decide)).1,
   (c4_channel_record_creation
      ⟨[(1, ⟨1, sOf "A", []⟩)], [(sOf "A", 1)], []⟩ 1 (sOf "c") (by decide)).2.2.2
     none 1 (sOf "A") MessageMode.Local (sOf "hello") (by decide) (by decide)⟩

/-- **C7.** `connectClient` always succeeds (it is total); with an empty
requested nickname it synthesizes the default `"Player_{id}"` (then resolved
for uniqueness); it appends the `"connected"` notice to every
previously-connected session's queue; and the new session is inserted after
the notice is distributed, so its own queue is empty — it never receives its
own join notice. -/
theorem c7_connect_behavior (cp : ChatProcessor) (id : ConnectionId) (nick : Str)
    (hfree : mapGet? cp.m_clients id = none) :
    (nick = [] →
      (connectClient cp id nick).1 =
        makeNickUnique cp.m_nicks (sOf "Player_" ++ natToStr id)) ∧
    (∀ j cj, mapGet? cp.m_clients j = some cj →
      mapGet? (connectClient cp id nick).2.m_clients j =
        some { cj with pendingMessages :=
          cj.pendingMessages ++ [connectedNotice (connectClient cp id nick).1] }) ∧
    mapGet? (connectClient cp id nick).2.m_clients id =
      some ⟨id, (connectClient cp id nick).1, []⟩ := by
  refine ⟨?_, ?_, ?_⟩
  · intro h
    subst h
    simp [connectClient]
  · intro j cj hj
    simp only [connectClient]
    rw [mapGet?_append_single]
    rw [mapGet?_appendAll, hj]
    rfl
  · simp only [connectClient]
    rw [mapGet?_append_single]
    rw [mapGet?_appendAll, hfree]
    simp

/-- Witness for C7: concrete application of `c7_connect_behavior` connecting
id 2 with an empty requested nickname next to an existing client. -/
theorem c7_connect_behavior_witness :
    ((connectClient (⟨[(1, ⟨1, sOf "A", []⟩)], [(sOf "A", 1)], []⟩ : ChatProcessor)
        2 []).1 =
      makeNickUnique [(sOf "A", 1)] (sOf "Player_" ++ natToStr 2)) ∧
    (mapGet? (connectClient
        (⟨[(1, ⟨1, sOf "A", []⟩)], [(sOf "A", 1)], []⟩ : ChatProcessor)
        2 []).2.m_clients 1 =
      some ⟨1, sOf "A",
        [connectedNotice (connectClient
          (⟨[(1, ⟨1, sOf "A", []⟩)], [(sOf "A", 1)], []⟩ : ChatProcessor) 2 []).1]⟩) ∧
    (mapGet? (connectClient
        (⟨[(1, ⟨1, sOf "A", []⟩)], [(sOf "A", 1)], []⟩ : ChatProcessor)
        2 []).2.m_clients 2 =
      some ⟨2, (connectClient
        (⟨[(1, ⟨1, sOf "A", []⟩)], [(sOf "A", 1)], []⟩ : ChatProcessor) 2 []).1, []⟩) :=
  ⟨(c7_connect_behavior ⟨[(1, ⟨1, sOf "A", []⟩)], [(sOf "A", 1)], []⟩ 2 []
      (by decide)).1 rfl,
   (c7_connect_behavior ⟨[(1, ⟨1, sOf "A", []⟩)], [(sOf "A", 1)], []⟩ 2 []
      (by decide)).2.1 1 ⟨1, sOf "A", []⟩ (by decide),
   (c7_connect_behavior ⟨[(1, ⟨1, sOf "A", []⟩)], [(sOf "A", 1)], []⟩ 2 []
      (by decide)).2.2⟩

/-- **C6.** For a source whose nickname resolves (a connected session or the
server) and a text not consumed as a command (no leading prefix character, or
two leading prefix characters), `broadcast` appends exactly one copy of a
Broadcast-context message stamped with the sender's nickname to every
connected session's queue, the sender included; a `//`-escaped text is
delivered with exactly one leading prefix character stripped, never
interpreted as a command. -/
theorem c6_broadcast_delivery (h? : Option CommandHandler) (cp : ChatProcessor)
    (src : ConnectionId) (text snick : Str)
    (hnick : connectionNick cp src = some snick)
    (hnc : beginsWith text (sOf "/") = false ∨ beginsWith text (sOf "//") = true) :
    ∃ cp', broadcast h? cp src text = some cp' ∧
      (∀ j, mapGet? cp'.m_clients j =
        (mapGet? cp.m_clients j).map (fun cj =>
          { cj with pendingMessages := cj.pendingMessages ++
            [{ context := { mode := MessageMode.Broadcast, channelName := [] }
               fromConnection := src
               fromNick := snick
               text := if beginsWith text (sOf "//") = true then text.drop 1
                       else text }] })) ∧
      cp'.m_nicks = cp.m_nicks ∧ cp'.m_channels = cp.m_channels := by
  rcases hnc with hplain | hesc
  · have hesc2 : beginsWith text (sOf "//") = false := by
      cases hb : beginsWith text (sOf "//")
      · rfl
      · exact absurd (beginsWith_slashslash_slash text hb) (by simp [hplain])
    simp only [broadcast, hnick]
    rw [handleCommand_not_command h? text.length cp _ (by simpa using hplain)]
    refine ⟨_, rfl, ?_, rfl, rfl⟩
    intro j
    rw [mapGet?_appendAll]
    simp [hesc2]
  · simp only [broadcast, hnick]
    rw [handleCommand_escaped h? text.length cp _
      (by simpa using beginsWith_slashslash_slash text hesc) (by simpa using hesc)]
    refine ⟨_, rfl, ?_, rfl, rfl⟩
    intro j
    rw [mapGet?_appendAll]
    simp [hesc]

/-- Witness for C6: concrete application of `c6_broadcast_delivery`
broadcasting the escaped text `"//x"`. -/
theorem c6_broadcast_delivery_witness :
    ∃ cp', broadcast none
        (⟨[(1, ⟨1, sOf "A", []⟩), (2, ⟨2, sOf "B", []⟩)],
          [(sOf "A", 1), (sOf "B", 2)], []⟩ : ChatProcessor) 1 (sOf "//x") =
        some cp' ∧
      (∀ j, mapGet? cp'.m_clients j =
        (mapGet? (⟨[(1, ⟨1, sOf "A", []⟩), (2, ⟨2, sOf "B", []⟩)],
          [(sOf "A", 1), (sOf "B", 2)], []⟩ : ChatProcessor).m_clients j).map
          (fun cj =>
          { cj with pendingMessages := cj.pendingMessages ++
            [{ context := { mode := MessageMode.Broadcast, channelName := [] }
               fromConnection := 1
               fromNick := sOf "A"
               text := if beginsWith (sOf "//x") (sOf "//") = true
                       then (sOf "//x").drop 1 else sOf "//x" }] })) ∧
      cp'.m_nicks = [(sOf "A", 1), (sOf "B", 2)] ∧ cp'.m_channels = [] :=
  c6_broadcast_delivery none
    ⟨[(1, ⟨1, sOf "A", []⟩), (2, ⟨2, sOf "B", []⟩)],
      [(sOf "A", 1), (sOf "B", 2)], []⟩ 1 (sOf "//x") (sOf "A")
    (by decide) (Or.inr (by decide))

/-- **C5.** Disconnect on a connected id removes it from every channel it had
joined — afterwards its channel list is empty and every active channel is
non-empty and excludes it — removes the session record and its nickname
mapping, appends the "disconnected" notice to every remaining session's
queue, and returns exactly the disconnected session's still-unread pending
queue. -/
theorem c5_disconnect_behavior (cp : ChatProcessor) (id : ConnectionId)
    (ci : ClientInfo) (hci : mapGet? cp.m_clients id = some ci) :
    ∃ cp', disconnectClient cp id = some (ci.pendingMessages, cp') ∧
      clientChannels cp' id = [] ∧
      (∀ p ∈ cp'.m_channels, id ∉ p.2) ∧
      (∀ ch ∈ activeChannels cp',
        ∃ p ∈ cp'.m_channels, p.1 = ch ∧ p.2 ≠ [] ∧ id ∉ p.2) ∧
      mapGet? cp'.m_clients id = none ∧
      mapGet? cp'.m_nicks ci.nick = none ∧
      (∀ j cj, j ≠ id → mapGet? cp.m_clients j = some cj →
        mapGet? cp'.m_clients j =
          some { cj with pendingMessages :=
            cj.pendingMessages ++ [disconnectedNotice ci.nick] }) := by
  have hclients := leaveAllChannels_clients cp id (clientChannels cp id)
  have hnicks := leaveAllChannels_nicks cp id (clientChannels cp id)
  have hci1 : mapGet? (leaveAllChannels cp id (clientChannels cp id)).m_clients id =
      some ci := by
    rw [hclients]; exact hci
  have hnomem := leaveAllChannels_entries id (clientChannels cp id) cp
    (clientChannels_covers cp id)
  simp only [disconnectClient, hci1]
  refine ⟨_, rfl, ?_, hnomem, ?_, ?_, ?_, ?_⟩
  · refine List.filterMap_eq_nil_iff.mpr ?_
    intro p hp
    simp [hnomem p hp]
  · intro ch hch
    obtain ⟨p, hp, hif⟩ := List.mem_filterMap.mp hch
    simp at hif
    exact ⟨p, hp, hif.2, hif.1, hnomem p hp⟩
  · rw [mapGet?_appendAll, mapGet?_mapRemove]
    simp
  · rw [mapGet?_mapRemove]
    simp
  · intro j cj hj hcj
    rw [mapGet?_appendAll, mapGet?_mapRemove]
    simp only [hj, if_false, hclients, hcj, Option.map_some]
    rfl

/-- Witness for C5: concrete application of `c5_disconnect_behavior` at a
two-client state where client 1 is a member of channels `"c"` and `"d"`. -/
theorem c5_disconnect_behavior_witness :
    ∃ cp', disconnectClient
        (⟨[(1, ⟨1, sOf "A", [⟨⟨MessageMode.Whisper, []⟩, 2, sOf "B", sOf "hi"⟩]⟩),
           (2, ⟨2, sOf "B", []⟩)],
          [(sOf "A", 1), (sOf "B", 2)],
          [(sOf "c", [1, 2]), (sOf "d", [1])]⟩ : ChatProcessor) 1 =
      some ([⟨⟨MessageMode.Whisper, []⟩, 2, sOf "B", sOf "hi"⟩], cp') ∧
      clientChannels cp' 1 = [] ∧
      (∀ p ∈ cp'.m_channels, 1 ∉ p.2) ∧
      (∀ ch ∈ activeChannels cp',
        ∃ p ∈ cp'.m_channels, p.1 = ch ∧ p.2 ≠ [] ∧ 1 ∉ p.2) ∧
      mapGet? cp'.m_clients 1 = none ∧
      mapGet? cp'.m_nicks (sOf "A") = none ∧
      (∀ j cj, j ≠ 1 →
        mapGet? (⟨[(1, ⟨1, sOf "A",
              [⟨⟨MessageMode.Whisper, []⟩, 2, sOf "B", sOf "hi"⟩]⟩),
            (2, ⟨2, sOf "B", []⟩)],
          [(sOf "A", 1), (sOf "B", 2)],
          [(sOf "c", [1, 2]), (sOf "d", [1])]⟩ : ChatProcessor).m_clients j =
          some cj →
        mapGet? cp'.m_clients j =
          some { cj with pendingMessages :=
            cj.pendingMessages ++ [disconnectedNotice (sOf "A")] }) :=
  c5_disconnect_behavior
    ⟨[(1, ⟨1, sOf "A", [⟨⟨MessageMode.Whisper, []⟩, 2, sOf "B", sOf "hi"⟩]⟩),
      (2, ⟨2, sOf "B", []⟩)],
     [(sOf "A", 1), (sOf "B", 2)],
     [(sOf "c", [1, 2]), (sOf "d", [1])]⟩ 1
    ⟨1, sOf "A", [⟨⟨MessageMode.Whisper, []⟩, 2, sOf "B", sOf "hi"⟩]⟩ (by decide)

/-- The code's `w` target extraction agrees with the spec's description
whenever a quoted argument has a closing quote (with no closing quote the
spec's phrase "the next quote character" denotes nothing and the code yields
an empty target and text). -/
theorem wSplit_eq_specWSplit (arg : Str)
    (hclose : beginsWith arg (sOf "\x22") = true →
      (strFind? '\x22' (arg.drop 1)).isSome = true) :
    wSplit arg = specWSplit arg := by
  by_cases hq : beginsWith arg (sOf "\x22") = true
  · obtain ⟨j, hj⟩ := Option.isSome_iff_exists.mp (hclose hq)
    obtain ⟨h1, h2⟩ := strFind?_take '\x22' (arg.drop 1) j hj
    simp only [wSplit, specWSplit, hq, if_true, hj]
    rw [h2, ← h1]
  · simp only [wSplit, specWSplit]
    rw [if_neg hq, if_neg hq]
    simp only [extract]
    rw [strTrim_dropWhile]

theorem parse_w_text (rest : Str) :
    beginsWith (sOf "/w " ++ rest) (sOf "/") = true ∧
    beginsWith (sOf "/w " ++ rest) (sOf "//") = false := by
  rw [show sOf "/w " ++ rest = '/' :: 'w' :: ' ' :: rest from rfl]
  constructor
  · simp [beginsWith, sOf]
  · simp [beginsWith, sOf]

/-- **C3 counterexample.**  The claim states that whenever the target nickname
of a `w` command resolves to a connection, the target's queue receives one
Whisper message with the extracted text.  Issuing `/w Bob /x` from Alice:
`"Bob"` resolves to connection 2, yet Bob's queue stays empty — the whisper is
itself passed through the command interpreter, which consumes the text `/x`
and instead queues a "No such command x" CommandResult to Alice. -/
theorem c3_whisper_text_reinterpreted :
    broadcast none
      (⟨[(1, ⟨1, sOf "Alice", []⟩), (2, ⟨2, sOf "Bob", []⟩)],
        [(sOf "Alice", 1), (sOf "Bob", 2)], []⟩ : ChatProcessor) 1
      (sOf "/w Bob /x") =
      some ⟨[(1, ⟨1, sOf "Alice",
          [⟨⟨MessageMode.CommandResult, []⟩, 0, sOf "server",
            sOf "No such command x"⟩]⟩),
         (2, ⟨2, sOf "Bob", []⟩)],
        [(sOf "Alice", 1), (sOf "Bob", 2)], []⟩ ∧
    mapGet? ([(sOf "Alice", 1), (sOf "Bob", 2)] : AMap Str ConnectionId)
      (sOf "Bob") = some 2 := by decide

/-- **C3 (amended).**  The target/text extraction of the `w` command is the
two-form split the spec describes (quoted arguments need a closing quote);
when the target nickname is present in the nickname index, a Whisper is
performed with the extracted text and — because the whispered text is itself
passed through the command interpreter — provided that text does not begin
with the command prefix character, the target's queue (the target being a
connection other than the issuer) receives exactly one Whisper message with
that text and the issuer's queue a copy (the issuer here being a connected
non-server session); when the target nickname is not in the index, a
"No such nick" CommandResult is queued to the issuer only. -/
theorem c3_w_command (h? : Option CommandHandler) (cp : ChatProcessor)
    (issuer : ConnectionId) (ci : ClientInfo) (rest target content : Str)
    (hci : mapGet? cp.m_clients issuer = some ci)
    (hsrv : issuer ≠ ServerConnectionId)
    (hlead : rest.dropWhile isSpaceCh = rest)
    (hclose : beginsWith rest (sOf "\x22") = true →
      (strFind? '\x22' (rest.drop 1)).isSome = true)
    (hsplit : wSplit rest = (target, content))
    (hnc : beginsWith content (sOf "/") = false) :
    wSplit rest = specWSplit rest ∧
    (∀ tid tci, mapGet? cp.m_nicks target = some tid →
      mapGet? cp.m_clients tid = some tci → tid ≠ issuer →
      ∃ cp', broadcast h? cp issuer (sOf "/w " ++ rest) = some cp' ∧
        mapGet? cp'.m_clients tid = some { tci with pendingMessages :=
          tci.pendingMessages ++
            [⟨⟨MessageMode.Whisper, []⟩, issuer, ci.nick, content⟩] } ∧
        mapGet? cp'.m_clients issuer = some { ci with pendingMessages :=
          ci.pendingMessages ++
            [⟨⟨MessageMode.Whisper, []⟩, issuer, ci.nick, content⟩] } ∧
        (∀ j, j ≠ tid → j ≠ issuer →
          mapGet? cp'.m_clients j = mapGet? cp.m_clients j) ∧
        cp'.m_nicks = cp.m_nicks ∧ cp'.m_channels = cp.m_channels) ∧
    (mapGet? cp.m_nicks target = none →
      ∃ cp', broadcast h? cp issuer (sOf "/w " ++ rest) = some cp' ∧
        mapGet? cp'.m_clients issuer = some { ci with pendingMessages :=
          ci.pendingMessages ++
            [⟨⟨MessageMode.CommandResult, []⟩, ServerConnectionId, ServerNick,
              sOf "No such nick " ++ target⟩] } ∧
        (∀ j, j ≠ issuer → mapGet? cp'.m_clients j = mapGet? cp.m_clients j) ∧
        cp'.m_nicks = cp.m_nicks ∧ cp'.m_channels = cp.m_channels) := by
  have hcn : connectionNick cp issuer = some ci.nick := by
    simp [connectionNick, hsrv, hci]
  have hcont : mapContains cp.m_clients issuer = true := by
    simp [mapContains, hci]
  obtain ⟨hbw1, hbw2⟩ := parse_w_text rest
  refine ⟨wSplit_eq_specWSplit rest hclose, ?_, ?_⟩
  · intro tid tci htid htci hne
    simp only [broadcast, hcn]
    simp only [handleCommand, hbw1, hbw2, Bool.not_true, Bool.false_eq_true,
      if_false]
    rw [show (sOf "/w " ++ rest).drop 1 = 'w' :: ' ' :: rest from rfl]
    rw [extract_w rest hlead]
    simp only []
    rw [if_neg (show ¬((['w'] : Str) = sOf "nick") by decide),
        if_pos (show (['w'] : Str) = sOf "w" by decide)]
    rw [hsplit]
    simp only [htid]
    rw [show (sOf "/w " ++ rest).length = rest.length + 2 + 1 from (by
      rw [show sOf "/w " ++ rest = ['/', 'w', ' '] ++ rest from rfl,
        List.length_append, show (['/', 'w', ' '] : Str).length = 3 from rfl]
      omega)]
    simp only [whisper, hcn]
    rw [show rest.length + 2 = (rest.length + 1) + 1 from rfl]
    rw [handleCommand_not_command h? (rest.length + 1) cp _ hnc]
    simp only []
    rw [if_neg hsrv]
    simp only [hcont, if_true]
    have hcont2 : mapContains (appendTo cp issuer
        ⟨⟨MessageMode.Whisper, []⟩, issuer, ci.nick, content⟩).m_clients tid =
        true := by
      simp [appendTo, mapContains, mapGet?_mapUpdate, hne, htci]
    simp only [hcont2, if_true]
    refine ⟨_, rfl, ?_, ?_, ?_, rfl, rfl⟩
    · simp only [appendTo]
      rw [mapGet?_mapUpdate, mapGet?_mapUpdate]
      simp [hne, htci]
    · simp only [appendTo]
      rw [mapGet?_mapUpdate, mapGet?_mapUpdate]
      have hne2 : ¬(issuer = tid) := fun h => hne h.symm
      simp [hne2, hci]
    · intro j hj1 hj2
      simp only [appendTo]
      rw [mapGet?_mapUpdate, mapGet?_mapUpdate]
      simp [hj1, hj2]
  · intro hnone
    simp only [broadcast, hcn]
    simp only [handleCommand, hbw1, hbw2, Bool.not_true, Bool.false_eq_true,
      if_false]
    rw [show (sOf "/w " ++ rest).drop 1 = 'w' :: ' ' :: rest from rfl]
    rw [extract_w rest hlead]
    simp only []
    rw [if_neg (show ¬((['w'] : Str) = sOf "nick") by decide),
        if_pos (show (['w'] : Str) = sOf "w" by decide)]
    rw [hsplit]
    simp only [hnone]
    simp only [finishResponse, hcont, if_true]
    refine ⟨_, rfl, ?_, ?_, rfl, rfl⟩
    · simp only [appendTo]
      rw [mapGet?_mapUpdate]
      simp [hci]
    · intro j hj
      simp only [appendTo]
      rw [mapGet?_mapUpdate]
      simp [hj]

/-- Witness for C3: concrete application of `c3_w_command` where Alice issues
`/w Bob hi there`. -/
theorem c3_w_command_witness :
    wSplit (sOf "Bob hi there") = specWSplit (sOf "Bob hi there") ∧
    (∀ tid tci,
      mapGet? (⟨[(1, ⟨1, sOf "Alice", []⟩), (2, ⟨2, sOf "Bob", []⟩)],
        [(sOf "Alice", 1), (sOf "Bob", 2)], []⟩ : ChatProcessor).m_nicks
        (sOf "Bob") = some tid →
      mapGet? (⟨[(1, ⟨1, sOf "Alice", []⟩), (2, ⟨2, sOf "Bob", []⟩)],
        [(sOf "Alice", 1), (sOf "Bob", 2)], []⟩ : ChatProcessor).m_clients
        tid = some tci → tid ≠ 1 →
      ∃ cp', broadcast none
          (⟨[(1, ⟨1, sOf "Alice", []⟩), (2, ⟨2, sOf "Bob", []⟩)],
            [(sOf "Alice", 1), (sOf "Bob", 2)], []⟩ : ChatProcessor) 1
          (sOf "/w " ++ sOf "Bob hi there") = some cp' ∧
        mapGet? cp'.m_clients tid = some { tci with pendingMessages :=
          tci.pendingMessages ++
            [⟨⟨MessageMode.Whisper, []⟩, 1, (⟨1, sOf "Alice", []⟩ : ClientInfo).nick,
              sOf "hi there"⟩] } ∧
        mapGet? cp'.m_clients 1 =
          some { (⟨1, sOf "Alice", []⟩ : ClientInfo) with pendingMessages :=
            (⟨1, sOf "Alice", []⟩ : ClientInfo).pendingMessages ++
              [⟨⟨MessageMode.Whisper, []⟩, 1, (⟨1, sOf "Alice", []⟩ : ClientInfo).nick,
                sOf "hi there"⟩] } ∧
        (∀ j, j ≠ tid → j ≠ 1 →
          mapGet? cp'.m_clients j =
            mapGet? (⟨[(1, ⟨1, sOf "Alice", []⟩), (2, ⟨2, sOf "Bob", []⟩)],
              [(sOf "Alice", 1), (sOf "Bob", 2)], []⟩ : ChatProcessor).m_clients j) ∧
        cp'.m_nicks = [(sOf "Alice", 1), (sOf "Bob", 2)] ∧
        cp'.m_channels = []) ∧
    (mapGet? (⟨[(1, ⟨1, sOf "Alice", []⟩), (2, ⟨2, sOf "Bob", []⟩)],
        [(sOf "Alice", 1), (sOf "Bob", 2)], []⟩ : ChatProcessor).m_nicks
        (sOf "Bob") = none →
      ∃ cp', broadcast none
          (⟨[(1, ⟨1, sOf "Alice", []⟩), (2, ⟨2, sOf "Bob", []⟩)],
            [(sOf "Alice", 1), (sOf "Bob", 2)], []⟩ : ChatProcessor) 1
          (sOf "/w " ++ sOf "Bob hi there") = some cp' ∧
        mapGet? cp'.m_clients 1 =
          some { (⟨1, sOf "Alice", []⟩ : ClientInfo) with pendingMessages :=
            (⟨1, sOf "Alice", []⟩ : ClientInfo).pendingMessages ++
              [⟨⟨MessageMode.CommandResult, []⟩, ServerConnectionId, ServerNick,
                sOf "No such nick " ++ sOf "Bob"⟩] } ∧
        (∀ j, j ≠ 1 →
          mapGet? cp'.m_clients j =
            mapGet? (⟨[(1, ⟨1, sOf "Alice", []⟩), (2, ⟨2, sOf "Bob", []⟩)],
              [(sOf "Alice", 1), (sOf "Bob", 2)], []⟩ : ChatProcessor).m_clients j) ∧
        cp'.m_nicks = [(sOf "Alice", 1), (sOf "Bob", 2)] ∧
        cp'.m_channels = []) :=
  c3_w_command none
    ⟨[(1, ⟨1, sOf "Alice", []⟩), (2, ⟨2, sOf "Bob", []⟩)],
      [(sOf "Alice", 1), (sOf "Bob", 2)], []⟩ 1 ⟨1, sOf "Alice", []⟩
    (sOf "Bob hi there") (sOf "Bob") (sOf "hi there")
    (by decide) (by decide) (by decide) (by decide) (by decide) (by decide)
